import Mathlib

/-!
Shallow embedding of `micom/problems.py` (micom 0.10.5): the cooperative
tradeoff driver, the species knockout driver, the L2-norm objective
regularizer and the crossover-recovery policy, together with theorems
checking the natural-language specification against this embedding.

External collaborators (the LP/QP solver, `micom.util`, `micom.solution`,
`cobra`'s scoped model context, `pandas`, `tqdm`) are not part of
`problems.py`; they enter the embedding either as an abstract `Oracle`
(solver primitives, whose behaviour the drivers may not assume) or as
small definitions marked `Modelled from the spec:`.

Numbers are modelled as rationals: every bound manipulated by
`problems.py` is plain arithmetic (`fr * g`, `0.99 * fr * g`, ...), so the
claims under study are structural and do not depend on float rounding.
-/

namespace Micom

attribute [local semireducible] Rat.mul Rat.add Rat.sub Rat.inv Rat.ofScientific

/-- Solver status of a solution (spec §6: optimal / infeasible /
other-non-optimal). -/
inductive Status where
  | optimal
  | infeasible
  | other
deriving DecidableEq, Repr

/-- A numeric table cell: a number or not-a-number (`np.NaN`).  NumPy's
division by zero yields inf/nan; no claim under study divides by zero, and
we collapse those cases to `nan`. -/
inductive Val where
  | num (q : ℚ)
  | nan
deriving DecidableEq, Repr

/-- Element-wise subtraction (`new - old` on aligned pandas Series). -/
def Val.sub : Val → Val → Val
  | .num a, .num b => .num (a - b)
  | _, _ => .nan

/-- Element-wise division (`new / old` on aligned pandas Series). -/
def Val.div : Val → Val → Val
  | .num a, .num b => if b = 0 then .nan else .num (a / b)
  | _, _ => .nan

/-- A row of a growth-rate table: an association list from member name
(community members plus the synthetic `"medium"` pseudo-member) to value,
modelling a pandas Series and its index. -/
abbrev Row := List (String × Val)

/-- First-match association-list lookup (pandas label lookup). -/
def alookup {α : Type} : List (String × α) → String → Option α
  | [], _ => none
  | p :: ps, k => if p.1 = k then some p.2 else alookup ps k

/-- Aligned element-wise binary operation between two Series, indexed by the
left operand's labels (both operands here always carry the same index; a
label missing on the right gives `nan`, as pandas alignment does). -/
def rowZip (f : Val → Val → Val) (xs ys : Row) : Row :=
  xs.map (fun p => (p.1, f p.2 ((alookup ys p.1).getD .nan)))

/-- Symbolic objective expressions (`optlang.symbolics`): enough structure
for `1.0 * community_objective` and the L2-norm objective.  The source's
`.expand()` is a symbolic normalization that preserves the value of the
expression, so it is not represented; theorems about the objective are
stated through `Expr.eval`. -/
inductive Expr where
  | zero
  | var (name : String)
  | add (a b : Expr)
  | smul (c : ℚ) (e : Expr)
  | sq (e : Expr)
  | neg (e : Expr)
deriving DecidableEq, Repr

/-- Value of an objective expression under an assignment of the variables. -/
def Expr.eval (σ : String → ℚ) : Expr → ℚ
  | .zero => 0
  | .var n => σ n
  | .add a b => a.eval σ + b.eval σ
  | .smul c e => c * e.eval σ
  | .sq e => e.eval σ ^ 2
  | .neg e => -(e.eval σ)

/-- An optimization variable of a member's own-objective constraint, with
its bounds (`v.lb`, `v.ub` in the source). -/
structure Var where
  name : String
  lb : ℚ
  ub : ℚ
deriving DecidableEq, Repr

/-- A model reaction: `community_id` tags the member it belongs to;
`enabled = false` models `r.knock_out()` having been applied. -/
structure Reaction where
  id : String
  community_id : String
  enabled : Bool
deriving DecidableEq, Repr

/-- The community model state, restricted to the parts `problems.py` reads
and writes (spec §3):
* `co_lb` / `co_ub` are `com.variables.community_objective.lb/.ub`
  (`co_ub = none` models the unbounded `None`);
* `constraints` maps each constraint name (`"objective_" ++ sp`) to its
  associated variables;
* `objective` is the model's mutable objective expression;
* `modification` is the mutable modification marker;
* `memberMin` holds the per-member minimum-growth lower bounds installed by
  `_apply_min_growth`. -/
structure Community where
  species : List String
  constraints : List (String × List Var)
  reactions : List Reaction
  co_lb : ℚ
  co_ub : Option ℚ
  objective : Expr
  modification : Option String
  memberMin : List (String × ℚ)
deriving DecidableEq, Repr

/-- A solve result (spec §3): a status and the per-member growth-rate
column of its members table (`sol.members["growth_rate"]`), indexed by the
member names including the `"medium"` pseudo-member. -/
structure Solution where
  status : Status
  members : Row
deriving DecidableEq, Repr

/-- Which solver primitive an event in the driver trace records. -/
inductive EvKind where
  | retryCall
  | solveCall
  | optimizeCall
  | crossoverCall
deriving DecidableEq, Repr

/-- One solver invocation as observed by the drivers: its kind and the full
community state at the moment of the call (in particular the
`community_objective` bounds the solver saw). -/
structure Event where
  kind : EvKind
  state : Community
deriving DecidableEq, Repr

/-- The external solver primitives (spec §6), left abstract: any behaviour
of the collaborators is allowed, and theorems quantify over it.
* `retry` models `micom.util.optimize_with_retry`: `some v` is an optimal
  objective value, `none` means the retry policy was exhausted and
  `OptimizationError` is raised (spec §4.2);
* `solveFn` models `micom.solution.solve(community, fluxes, pfba)`;
* `optimizeFn` models `com.optimize()`;
* `crossoverFn` models `micom.solution.crossover(com, sol)`, which
  re-solves with the caller-installed narrowed bounds and returns whatever
  solution results, never raising (spec §4.3). -/
structure Oracle where
  retry : Community → Option ℚ
  solveFn : Community → Bool → Bool → Solution
  optimizeFn : Community → Solution
  crossoverFn : Community → Solution → Solution

/-- Errors a driver can raise (spec §7). -/
inductive DriverErr where
  | alreadyModifiedError
  | optimizationError (msg : String)
deriving DecidableEq, Repr

/-- Result of `cooperative_tradeoff`: a bare solution or a
(`tradeoff`, `solution`) table. -/
inductive TradeoffResult where
  | single (sol : Solution)
  | table (rows : List (ℚ × Solution))
deriving DecidableEq, Repr

/-- Result table of `knockout_species`: rows indexed by the knocked-out
species. -/
abbrev KoTable := List (String × Row)

/-- A driver call's observable outcome: the returned value or raised
error, the community model state after the call, and the trace of solver
invocations made during the call. -/
structure DriverOut (α : Type) where
  result : Except DriverErr α
  com : Community
  trace : List Event

/-- The `ok` value of an `Except`, if any. -/
def getOk {α : Type} : Except DriverErr α → Option α
  | .ok a => some a
  | .error _ => none

/-- The error of an `Except`, if any. -/
def getErr {α : Type} : Except DriverErr α → Option DriverErr
  | .ok _ => none
  | .error e => some e

/-- Whether the first character list is a pointwise head of the second. -/
def headMatches : List Char → List Char → Bool
  | [], _ => true
  | _ :: _, [] => false
  | c :: cs, d :: ds => c = d && headMatches cs ds

/-- Whether the first character list occurs contiguously in the second. -/
def subOf : List Char → List Char → Bool
  | sub, [] => sub.isEmpty
  | sub, c :: cs => headMatches sub (c :: cs) || subOf sub cs

/-- Python's substring test `flag in method` on the free-form `method`
string (the source checks `"change" in method`, `"relative" in method`). -/
def hasFlag (flag method : String) : Bool :=
  subOf flag.toList method.toList

/-- Modelled from the spec: the third-party `tqdm` progress wrapper "wraps
an iterable for human-visible progress; must not alter iteration order or
values" (spec §6), so on a list it is the identity. -/
def tqdm {α : Type} (l : List α) : List α := l

/-- Modelled from the spec: `micom.util.check_modification` (not under
`src/`) raises `AlreadyModifiedError` when the community already carries an
active modification marker (spec §7); here it returns whether the guard
fires. -/
def check_modification (com : Community) : Bool :=
  com.modification.isSome

/-- A minimum-growth specification: a single scalar applied to all members
or a per-member mapping (spec §3). -/
inductive MinGrowthSpec where
  | scalar (q : ℚ)
  | mapping (m : List (String × ℚ))
deriving DecidableEq, Repr

/-- Modelled from the spec: `micom.util._format_min_growth` (not under
`src/`) normalizes a scalar or per-member specification into a mapping with
exactly one entry per member (spec §2, §3). -/
def _format_min_growth (mg : MinGrowthSpec) (species : List String) :
    List (String × ℚ) :=
  match mg with
  | .scalar q => species.map (fun s => (s, q))
  | .mapping m => species.map (fun s => (s, (alookup m s).getD 0))

/-- Modelled from the spec: `micom.util._apply_min_growth` (not under
`src/`) "pushes minimum-growth requirements into the optimization model's
per-member constraints" (spec §2). -/
def _apply_min_growth (com : Community) (mg : List (String × ℚ)) :
    Community :=
  { com with memberMin := mg }

/-- Modelled from the spec: exiting a `with com:` block.  The scoped
modification mechanism (cobra's context manager together with
`micom.util.get_context`, not under `src/`) "must guarantee reversal of
every bound/objective mutation on exit — including on early exit via
error" (spec §5, §6, §9), so exit restores every mutable model field to
its value at scope entry; the statically-known fields (`species`,
`constraints`) are those of the exiting state. -/
def restoreScope (entry after : Community) : Community :=
  { after with
    reactions := entry.reactions
    co_lb := entry.co_lb
    co_ub := entry.co_ub
    objective := entry.objective
    modification := entry.modification
    memberMin := entry.memberMin }

/-- `reset_min_community_growth` from the source: reset the community
growth lower bound to `0` and the upper bound to unbounded. -/
def reset_min_community_growth (com : Community) : Community :=
  { com with co_lb := 0, co_ub := none }

/-- `regularize_l2_norm(community, min_growth)` from the source: pins the
community-objective lower bound to `min_growth`, installs
`community.objective = -l2` where `l2` accumulates, per member species,
the square of `scale` times the sum of that species' own-objective
constraint variables whose bound interval is wider than `1e-6`, and marks
the model with modification `"l2 norm"`.  The source also registers
`reset_min_community_growth` with the active context; that undo is
subsumed here by `restoreScope` on scope exit. -/
def regularize_l2_norm (community : Community) (min_growth : ℚ) :
    Community :=
  let com1 := { community with co_lb := min_growth }
  let scale : ℚ := (com1.species.length : ℚ)
  let l2 := com1.species.foldl
    (fun acc sp =>
      let species_obj := (alookup com1.constraints ("objective_" ++ sp)).getD []
      let ex := (species_obj.filter (fun v => v.ub - v.lb > 1 / 1000000)).foldl
        (fun e v => Expr.add e (Expr.var v.name)) Expr.zero
      Expr.add acc (Expr.sq (Expr.smul scale ex)))
    Expr.zero
  { com1 with objective := Expr.neg l2, modification := some "l2 norm" }

/-- The community state at the baseline solve of `cooperative_tradeoff`:
caller-supplied minimum growth applied and the objective set to
`1.0 * community_objective`. -/
def tradeoffPrep (community : Community) (min_growth : MinGrowthSpec) :
    Community :=
  let mg := _format_min_growth min_growth community.species
  let com := _apply_min_growth community mg
  { com with objective := Expr.smul 1 (Expr.var "community_objective") }

/-- Descending sort used on a fraction sequence
(`np.sort(fraction)[::-1]`); for rational values ascending-sort-then-
reverse and a descending insertion sort produce the same list. -/
def sortDesc (l : List ℚ) : List ℚ :=
  l.insertionSort (· ≥ ·)

/-- A fraction argument: either a bare scalar (not `Sized` in the source)
or a sequence. -/
inductive FracSpec where
  | scalar (f : ℚ)
  | seq (l : List ℚ)
deriving DecidableEq, Repr

/-- Normalization of the fraction argument in `cooperative_tradeoff`: a
scalar becomes a one-element list, a sequence is sorted descending. -/
def normFractions : FracSpec → List ℚ
  | .scalar f => [f]
  | .seq l => sortDesc l

/-- One iteration of the per-fraction sweep of `cooperative_tradeoff`
(source lines 83–90): install lower bound `fr * g`, solve; on a
non-optimal status narrow to `[0.99·fr·g, 1.01·fr·g]` and call the
crossover recovery, whose solution is used as-is. -/
def tradeoffStep (O : Oracle) (fluxes pfba : Bool) (g fr : ℚ)
    (com : Community) :
    (ℚ × Solution) × Community × List Event :=
  let com1 := { com with co_lb := fr * g }
  let sol := O.solveFn com1 fluxes pfba
  if sol.status = Status.optimal then
    ((fr, sol), com1, [⟨.solveCall, com1⟩])
  else
    let com2 := { com1 with
      co_lb := 99 / 100 * fr * g, co_ub := some (101 / 100 * fr * g) }
    let sol2 := O.crossoverFn com2 sol
    ((fr, sol2), com2, [⟨.solveCall, com1⟩, ⟨.crossoverCall, com2⟩])

/-- The per-fraction sweep (`for fr in fraction:`). -/
def tradeoffLoop (O : Oracle) (fluxes pfba : Bool) (g : ℚ) :
    List ℚ → Community → List (ℚ × Solution) × Community × List Event
  | [], com => ([], com, [])
  | fr :: rest, com =>
    let s := tradeoffStep O fluxes pfba g fr com
    let t := tradeoffLoop O fluxes pfba g rest s.2.1
    (s.1 :: t.1, t.2.1, s.2.2 ++ t.2.2)

/-- The return shaping of `cooperative_tradeoff` (source lines 91–94):
`if len(results) == 1: return results[0][1]` else the
(`tradeoff`, `solution`) table. -/
def tradeoffFinish (results : List (ℚ × Solution)) : TradeoffResult :=
  match results with
  | [r] => TradeoffResult.single r.2
  | _ => TradeoffResult.table results

/-- Body of `cooperative_tradeoff` inside the `with community as com:`
scope (source lines 66–94). -/
def tradeoffBody (O : Oracle) (community : Community)
    (min_growth : MinGrowthSpec) (fraction : FracSpec)
    (fluxes pfba : Bool) :
    Except DriverErr TradeoffResult × Community × List Event :=
  if check_modification community then
    (.error .alreadyModifiedError, community, [])
  else
    let com2 := tradeoffPrep community min_growth
    match O.retry com2 with
    | none =>
      (.error (.optimizationError "could not get community growth rate."),
       com2, [⟨.retryCall, com2⟩])
    | some g =>
      let frs := normFractions fraction
      let com3 := regularize_l2_norm com2 0
      let t := tradeoffLoop O fluxes pfba g frs com3
      (.ok (tradeoffFinish t.1), t.2.1, ⟨.retryCall, com2⟩ :: t.2.2)

/-- `cooperative_tradeoff(community, min_growth, fraction, fluxes, pfba)`
from the source: the whole body runs inside `with community as com:`, so
the model state is restored on every exit path. -/
def cooperative_tradeoff (O : Oracle) (community : Community)
    (min_growth : MinGrowthSpec) (fraction : FracSpec)
    (fluxes pfba : Bool) : DriverOut TradeoffResult :=
  let b := tradeoffBody O community min_growth fraction fluxes pfba
  ⟨b.1, restoreScope community b.2.1, b.2.2⟩

/-- Knock out every reaction tagged with community-membership id `sp`
(`[r.knock_out() for r in com.reactions.query(lambda ri: ri.community_id == sp)]`). -/
def knockOutReactions (com : Community) (sp : String) : Community :=
  { com with reactions :=
      (com.reactions.map (fun r =>
        if r.community_id = sp then { r with enabled := false } else r)) }

/-- State after entering the per-species scope of `knockout_species`
(source lines 114–120): community-objective bounds relaxed to `[0, c0]`
and the species' reactions knocked out. -/
def knockoutScopeState (com : Community) (c0 : ℚ) (sp : String) :
    Community :=
  knockOutReactions { com with co_lb := 0, co_ub := some c0 } sp

/-- State inside the innermost scope (source lines 122–127): objective set
to `1.0 * community_objective` for the post-knockout baseline solve. -/
def knockoutInnerState (com : Community) (c0 : ℚ) (sp : String) :
    Community :=
  { knockoutScopeState com c0 sp with
    objective := Expr.smul 1 (Expr.var "community_objective") }

/-- State at the per-species target solve (source lines 128–130): the
innermost scope has exited (restoring the objective) and the
community-objective bounds are `[fraction·gsp, gsp]`. -/
def knockoutTargetState (com : Community) (c0 : ℚ) (sp : String)
    (fraction gsp : ℚ) : Community :=
  { restoreScope (knockoutScopeState com c0 sp) (knockoutInnerState com c0 sp) with
    co_lb := fraction * gsp, co_ub := some gsp }

/-- The reporting transform of `knockout_species` (source lines 136–141):
`new = sol.members["growth_rate"]`, then `new = new - old` when
`"change" in method`, then `new /= old` when `"relative" in method`.
Returns the reported row together with the growth-rate column of
`sol.members` after the transform: `new - old` rebinds `new` to a fresh
Series, while `new /= old` is a pandas in-place division that writes
through to the frame the Series was extracted from, so the solution's
column is overwritten exactly when `"relative"` is requested without
`"change"`. -/
def knockoutReport (method : String) (old new0 : Row) : Row × Row :=
  let hasC := hasFlag "change" method
  let hasR := hasFlag "relative" method
  let n1 := if hasC then rowZip Val.sub new0 old else new0
  let n2 := if hasR then rowZip Val.div n1 old else n1
  (n2, if hasR && !hasC then n2 else new0)

/-- One iteration of the per-species sweep of `knockout_species` (source
lines 113–141), including its two nested scopes.  Returns the reported row
and the solution object as it stands after the reporting transform (for
the mutation claims), the community state after the per-species scope
exits, and the solver-call trace. -/
def knockoutStep (O : Oracle) (fraction c0 : ℚ) (method : String)
    (old : Row) (sp : String) (com : Community) :
    Except DriverErr (Row × Solution) × Community × List Event :=
  let com2 := knockoutScopeState com c0 sp
  let com3 := knockoutInnerState com c0 sp
  match O.retry com3 with
  | none =>
    (.error (.optimizationError
        ("could not get community growth rate for knockout " ++ sp ++ ".")),
     restoreScope com (restoreScope com2 com3), [⟨.retryCall, com3⟩])
  | some gsp =>
    let com5 := knockoutTargetState com c0 sp fraction gsp
    let sol := O.optimizeFn com5
    let r :=
      if sol.status = Status.optimal then (sol, com5, ([] : List Event))
      else
        let com6 := { com5 with co_lb := 0, co_ub := some (fraction * gsp) }
        (O.crossoverFn com6 sol, com6, [(⟨.crossoverCall, com6⟩ : Event)])
    let rep := knockoutReport method old r.1.members
    (.ok (rep.1, { r.1 with members := rep.2 }),
     restoreScope com r.2.1,
     ⟨.retryCall, com3⟩ :: ⟨.optimizeCall, com5⟩ :: r.2.2)

/-- The per-species sweep (`for sp in species:`); an `OptimizationError`
raised by an iteration aborts the whole sweep. -/
def knockoutLoop (O : Oracle) (fraction c0 : ℚ) (method : String)
    (old : Row) :
    List String → Community →
    Except DriverErr (List Row) × Community × List Event
  | [], com => (.ok [], com, [])
  | sp :: rest, com =>
    match knockoutStep O fraction c0 method old sp com with
    | (.error e, com1, tr) => (.error e, com1, tr)
    | (.ok rs, com1, tr) =>
      match knockoutLoop O fraction c0 method old rest com1 with
      | (.error e, com2, tr2) => (.error e, com2, tr ++ tr2)
      | (.ok rows, com2, tr2) => (.ok (rs.1 :: rows), com2, tr ++ tr2)

/-- Drop the `"medium"` pseudo-member column from every row
(`.drop("medium", 1)`). -/
def dropColumn (col : String) (rows : List Row) : List Row :=
  rows.map (fun row => row.filter (fun p => p.1 ≠ col))

/-- `pd.DataFrame(results, index=species)`: pair each row with its
knocked-out species. -/
def zipTable (index : List String) (rows : List Row) : KoTable :=
  index.zip rows

/-- `np.fill_diagonal(ko.values, np.NaN)`: positionally set entry `i` of
row `i` to `nan`. -/
def fillDiagonal (rows : List Row) : List Row :=
  rows.mapIdx (fun i row =>
    row.mapIdx (fun j p => if j = i then (p.1, Val.nan) else p))

/-- The community state at the baseline retry of `knockout_species`: zero
minimum growth applied to all members; the objective is whatever the model
came in with (the source sets no objective before this solve). -/
def knockoutPrep (community : Community) : Community :=
  _apply_min_growth community (_format_min_growth (.scalar 0) community.species)

/-- Body of `knockout_species` inside the `with community as com:` scope
(source lines 100–147).  Note the source builds the result table twice:
`ko` receives the `fill_diagonal` treatment when `diag` is false, but the
`return` statement rebuilds the table from `results`, discarding `ko`. -/
def knockoutBody (O : Oracle) (community : Community)
    (species : List String) (fraction : ℚ) (method : String)
    (progress : Bool) (diag : Bool) :
    Except DriverErr KoTable × Community × List Event :=
  if check_modification community then
    (.error .alreadyModifiedError, community, [])
  else
    let com1 := knockoutPrep community
    match O.retry com1 with
    | none =>
      (.error (.optimizationError "could not get community growth rate."),
       com1, [⟨.retryCall, com1⟩])
    | some c0 =>
      let com2 := regularize_l2_norm com1 (fraction * c0)
      let oldSol := O.optimizeFn com2
      let old := oldSol.members
      let sp_list := if progress then tqdm species else species
      let tr0 : List Event := [⟨.retryCall, com1⟩, ⟨.optimizeCall, com2⟩]
      match knockoutLoop O fraction c0 method old sp_list com2 with
      | (.error e, com4, tr) => (.error e, com4, tr0 ++ tr)
      | (.ok results, com4, tr) =>
        let dropped := dropColumn "medium" results
        let _ko := if diag then zipTable sp_list dropped
                   else zipTable sp_list (fillDiagonal dropped)
        (.ok (zipTable sp_list dropped), com4, tr0 ++ tr)

/-- `knockout_species(community, species, fraction, method, progress,
diag=True)` from the source: the whole body runs inside
`with community as com:`, so the model state is restored on every exit
path. -/
def knockout_species (O : Oracle) (community : Community)
    (species : List String) (fraction : ℚ) (method : String)
    (progress : Bool) (diag : Bool := true) : DriverOut KoTable :=
  let b := knockoutBody O community species fraction method progress diag
  ⟨b.1, restoreScope community b.2.1, b.2.2⟩

/-- Per-species summand of the L2 objective built by
`regularize_l2_norm`: the square of the member count times the sum of the
species' own-objective constraint variables whose bound interval is wider
than `1e-6`. -/
def l2Term (com : Community) (sp : String) : Expr :=
  Expr.sq (Expr.smul ((com.species.length : ℚ))
    ((((alookup com.constraints ("objective_" ++ sp)).getD []).filter
        (fun v => v.ub - v.lb > 1 / 1000000)).foldl
      (fun e v => Expr.add e (Expr.var v.name)) Expr.zero))

/-- Whether a tradeoff result is the table form. -/
def isTable : TradeoffResult → Bool
  | .table _ => true
  | .single _ => false

/-- Cell lookup in a knockout result: row of knocked-out species `i`,
column of measured species `c`. -/
def tableCell (res : Except DriverErr KoTable) (i c : String) : Option Val :=
  ((getOk res).bind (fun t => alookup t i)).bind (fun row => alookup row c)

/-! ### Concrete communities and oracles for counterexamples and witnesses -/

/-- A fixed optimal solution with one member and the `"medium"`
pseudo-member. -/
def solTriv : Solution :=
  ⟨.optimal, [("A", .num 1), ("medium", .num 0)]⟩

/-- An oracle whose every primitive succeeds optimally. -/
def Otriv : Oracle :=
  ⟨fun _ => some 1, fun _ _ _ => solTriv, fun _ => solTriv, fun _ s => s⟩

/-- A one-member community in its default state (`community_objective`
bounds `[0, None]`, no active modification). -/
def comA : Community :=
  ⟨["A"], [("objective_A", [⟨"vA", 0, 10⟩])], [⟨"rA", "A", true⟩],
   0, none, .zero, none, []⟩

/-- A two-member community in its default state. -/
def comAB : Community :=
  ⟨["A", "B"],
   [("objective_A", [⟨"vA", 0, 10⟩]), ("objective_B", [⟨"vB", 0, 10⟩])],
   [⟨"rA", "A", true⟩, ⟨"rB", "B", true⟩],
   0, none, .zero, none, []⟩

/-- The members row returned by `OknockAB`. -/
def rowAB : Row :=
  [("A", .num 1), ("B", .num 1), ("medium", .num 0)]

/-- Oracle for the knockout driver over `comAB`: every solve is optimal
with growth-rate row `rowAB`. -/
def OknockAB : Oracle :=
  ⟨fun _ => some 2, fun _ _ _ => ⟨.optimal, rowAB⟩,
   fun _ => ⟨.optimal, rowAB⟩, fun _ s => s⟩

/-- Oracle whose per-fraction / per-species target solves are non-optimal
(they are exactly the solves issued with a finite upper bound in the
knockout driver and the ones issued with `co_ub = none` in the tradeoff
loop before any crossover), so crossover recovery fires. -/
def Ocx3 : Oracle :=
  ⟨fun _ => some 2,
   fun c _ _ => if c.co_ub = none then ⟨.other, rowAB⟩ else ⟨.optimal, rowAB⟩,
   fun c => if c.co_ub = none then ⟨.optimal, rowAB⟩ else ⟨.other, rowAB⟩,
   fun _ s => ⟨.infeasible, s.members⟩⟩

/-- Oracle for the tradeoff sweep whose baseline growth depends on the
installed per-member minimum growth (2 under zero minimum growth, 1 under
the caller's minimum growth of 1) and whose per-fraction solve is
non-optimal exactly while the upper bound is still unbounded. -/
def Ocx4 : Oracle :=
  ⟨fun c => if alookup c.memberMin "A" = some 0 then some 2 else some 1,
   fun c _ _ => if c.co_ub = none then ⟨.other, rowAB⟩ else ⟨.optimal, rowAB⟩,
   fun _ => ⟨.optimal, rowAB⟩, fun _ s => s⟩

/-- Oracle for the mutation counterexample: the per-species target solve is
optimal with growth-rate row `[("A", 1), ("medium", 2)]`. -/
def Ocx9 : Oracle :=
  ⟨fun _ => some 2, fun _ _ _ => ⟨.optimal, rowAB⟩,
   fun _ => ⟨.optimal, [("A", .num 1), ("medium", .num 2)]⟩, fun _ s => s⟩

/-- Default event used to index concretely into traces. -/
def defaultEvent : Event :=
  ⟨.retryCall, comA⟩

/-- The community carrying an active `"l2 norm"` modification marker. -/
def comMod : Community :=
  { comA with modification := some "l2 norm" }

/-! ### Helper lemmas -/

/-- Restoring a scope returns the entry state whenever the statically-known
fields were preserved by the scope's body. -/
theorem restoreScope_eq_entry (entry after : Community)
    (hs : after.species = entry.species)
    (hc : after.constraints = entry.constraints) :
    restoreScope entry after = entry := by
  cases entry
  cases after
  simp_all [restoreScope]

/-- A tradeoff iteration leaves the species list and the constraint table
unchanged. -/
theorem tradeoffStep_skeleton (O : Oracle) (fl pf : Bool) (g fr : ℚ)
    (com : Community) :
    ((tradeoffStep O fl pf g fr com).2.1).species = com.species ∧
    ((tradeoffStep O fl pf g fr com).2.1).constraints = com.constraints := by
  simp only [tradeoffStep]
  split <;> simp

/-- The tradeoff sweep leaves the species list and the constraint table
unchanged. -/
theorem tradeoffLoop_skeleton (O : Oracle) (fl pf : Bool) (g : ℚ) :
    ∀ (frs : List ℚ) (com : Community),
      ((tradeoffLoop O fl pf g frs com).2.1).species = com.species ∧
      ((tradeoffLoop O fl pf g frs com).2.1).constraints = com.constraints
  | [], com => by simp [tradeoffLoop]
  | fr :: rest, com => by
    have h1 := tradeoffStep_skeleton O fl pf g fr com
    have h2 := tradeoffLoop_skeleton O fl pf g rest ((tradeoffStep O fl pf g fr com).2.1)
    simp only [tradeoffLoop]
    exact ⟨h2.1.trans h1.1, h2.2.trans h1.2⟩

/-- The tradeoff body leaves the species list and the constraint table
unchanged. -/
theorem tradeoffBody_skeleton (O : Oracle) (com : Community)
    (mg : MinGrowthSpec) (frspec : FracSpec) (fl pf : Bool) :
    ((tradeoffBody O com mg frspec fl pf).2.1).species = com.species ∧
    ((tradeoffBody O com mg frspec fl pf).2.1).constraints = com.constraints := by
  simp only [tradeoffBody]
  split
  · simp
  · cases hO : O.retry (tradeoffPrep com mg) with
    | none => simp only [hO]; exact ⟨rfl, rfl⟩
    | some g =>
      have h := tradeoffLoop_skeleton O fl pf g (normFractions frspec)
        (regularize_l2_norm (tradeoffPrep com mg) 0)
      simp only [hO]
      exact ⟨h.1, h.2⟩

/-- A knockout iteration leaves the species list and the constraint table
unchanged. -/
theorem knockoutStep_skeleton (O : Oracle) (fraction c0 : ℚ)
    (method : String) (old : Row) (sp : String) (com : Community) :
    ((knockoutStep O fraction c0 method old sp com).2.1).species = com.species ∧
    ((knockoutStep O fraction c0 method old sp com).2.1).constraints = com.constraints := by
  simp only [knockoutStep]
  cases hO : O.retry (knockoutInnerState com c0 sp) with
  | none => simp only [hO]; exact ⟨rfl, rfl⟩
  | some gsp =>
    simp only [hO]
    split <;> exact ⟨rfl, rfl⟩

/-- The knockout sweep leaves the species list and the constraint table
unchanged. -/
theorem knockoutLoop_skeleton (O : Oracle) (fraction c0 : ℚ)
    (method : String) (old : Row) :
    ∀ (sps : List String) (com : Community),
      ((knockoutLoop O fraction c0 method old sps com).2.1).species = com.species ∧
      ((knockoutLoop O fraction c0 method old sps com).2.1).constraints = com.constraints
  | [], com => by simp [knockoutLoop]
  | sp :: rest, com => by
    have h1 := knockoutStep_skeleton O fraction c0 method old sp com
    simp only [knockoutLoop]
    rcases hstep : knockoutStep O fraction c0 method old sp com with ⟨r, com1, tr⟩
    rw [hstep] at h1
    cases r with
    | error e => exact h1
    | ok rs =>
      dsimp only
      have h2 := knockoutLoop_skeleton O fraction c0 method old rest com1
      cases hloop : knockoutLoop O fraction c0 method old rest com1 with
      | mk r2 rest2 =>
        rw [hloop] at h2
        cases r2 <;> exact ⟨h2.1.trans h1.1, h2.2.trans h1.2⟩

/-- The knockout body leaves the species list and the constraint table
unchanged. -/
theorem knockoutBody_skeleton (O : Oracle) (com : Community)
    (species : List String) (fraction : ℚ) (method : String)
    (progress diag : Bool) :
    ((knockoutBody O com species fraction method progress diag).2.1).species = com.species ∧
    ((knockoutBody O com species fraction method progress diag).2.1).constraints = com.constraints := by
  simp only [knockoutBody]
  split
  · simp
  · cases hO : O.retry (knockoutPrep com) with
    | none => simp only [hO]; exact ⟨rfl, rfl⟩
    | some c0 =>
      simp only [hO]
      have h := knockoutLoop_skeleton O fraction c0 method
        (O.optimizeFn (regularize_l2_norm (knockoutPrep com) (fraction * c0))).members
        (if progress then tqdm species else species)
        (regularize_l2_norm (knockoutPrep com) (fraction * c0))
      rcases hloop : knockoutLoop O fraction c0 method
          (O.optimizeFn (regularize_l2_norm (knockoutPrep com) (fraction * c0))).members
          (if progress then tqdm species else species)
          (regularize_l2_norm (knockoutPrep com) (fraction * c0)) with ⟨r, com4, tr⟩
      rw [hloop] at h
      cases r with
      | error e => exact h
      | ok rows => exact h

/-! ### Claim theorems -/

/-- C10: `knockout_species` with `progress = True` returns exactly the same
outcome (result table, final model state and solver trace) as with
`progress = False`: the progress wrapper alters neither iteration order
nor values nor the output. -/
theorem knockout_progress_transparent (O : Oracle) (com : Community)
    (species : List String) (fraction : ℚ) (method : String) (diag : Bool) :
    knockout_species O com species fraction method true diag =
      knockout_species O com species fraction method false diag := rfl

/-- C5: after any driver call — `cooperative_tradeoff` or
`knockout_species`, returning normally or raising — the community model's
state (in particular every variable bound and the objective expression) is
identical to its pre-call state, because the whole body runs inside the
scoped-modification block. -/
theorem drivers_restore_model_state (O : Oracle) (com : Community)
    (mg : MinGrowthSpec) (frspec : FracSpec) (fl pf : Bool)
    (species : List String) (fraction : ℚ) (method : String)
    (progress diag : Bool) :
    (cooperative_tradeoff O com mg frspec fl pf).com = com ∧
    (knockout_species O com species fraction method progress diag).com = com := by
  constructor
  · exact restoreScope_eq_entry com _ (tradeoffBody_skeleton O com mg frspec fl pf).1
      (tradeoffBody_skeleton O com mg frspec fl pf).2
  · exact restoreScope_eq_entry com _
      (knockoutBody_skeleton O com species fraction method progress diag).1
      (knockoutBody_skeleton O com species fraction method progress diag).2

/-- C8: calling either driver on a model that already carries an active
modification marker returns `AlreadyModifiedError`; the model state is
unchanged, no solver call is made, and no partial result is produced. -/
theorem modified_guard (O : Oracle) (com : Community) (mg : MinGrowthSpec)
    (frspec : FracSpec) (fl pf : Bool) (species : List String)
    (fraction : ℚ) (method : String) (progress diag : Bool) (m : String)
    (h : com.modification = some m) :
    (cooperative_tradeoff O com mg frspec fl pf).result
        = .error .alreadyModifiedError ∧
    (cooperative_tradeoff O com mg frspec fl pf).com = com ∧
    (cooperative_tradeoff O com mg frspec fl pf).trace = [] ∧
    (knockout_species O com species fraction method progress diag).result
        = .error .alreadyModifiedError ∧
    (knockout_species O com species fraction method progress diag).com = com ∧
    (knockout_species O com species fraction method progress diag).trace = [] := by
  have hc : check_modification com = true := by
    simp [check_modification, h]
  have hr : restoreScope com com = com := by
    cases com; simp [restoreScope]
  unfold cooperative_tradeoff tradeoffBody knockout_species knockoutBody
  rw [hc]
  simp [hr]

/-- Witness for C8 at a concrete modified community. -/
theorem modified_guard_witness :
    (cooperative_tradeoff Otriv comMod (.scalar 0) (.scalar 1) false false).result
        = .error .alreadyModifiedError ∧
    (cooperative_tradeoff Otriv comMod (.scalar 0) (.scalar 1) false false).com = comMod ∧
    (cooperative_tradeoff Otriv comMod (.scalar 0) (.scalar 1) false false).trace = [] ∧
    (knockout_species Otriv comMod ["A"] (1/2) "" false true).result
        = .error .alreadyModifiedError ∧
    (knockout_species Otriv comMod ["A"] (1/2) "" false true).com = comMod ∧
    (knockout_species Otriv comMod ["A"] (1/2) "" false true).trace = [] :=
  modified_guard Otriv comMod (.scalar 0) (.scalar 1) false false ["A"] (1/2) "" false true
    "l2 norm" rfl

/-- Evaluating the fold that sums own-objective variables. -/
theorem eval_foldl_vars (σ : String → ℚ) :
    ∀ (l : List Var) (init : Expr),
      Expr.eval σ (l.foldl (fun e v => Expr.add e (Expr.var v.name)) init) =
        Expr.eval σ init + (l.map (fun v => σ v.name)).sum
  | [], init => by simp [Expr.eval]
  | v :: vs, init => by
    rw [List.foldl_cons, eval_foldl_vars σ vs]
    simp only [Expr.eval, List.map_cons, List.sum_cons]
    ring

/-- Evaluating the fold that accumulates the per-species L2 summands. -/
theorem eval_foldl_l2 (com : Community) (σ : String → ℚ) :
    ∀ (l : List String) (init : Expr),
      Expr.eval σ (l.foldl (fun acc sp => Expr.add acc (l2Term com sp)) init) =
        Expr.eval σ init + (l.map (fun sp => Expr.eval σ (l2Term com sp))).sum
  | [], init => by simp [Expr.eval]
  | sp :: sps, init => by
    rw [List.foldl_cons, eval_foldl_l2 com σ sps]
    simp only [Expr.eval, List.map_cons, List.sum_cons]
    ring

/-- Value of one L2 summand. -/
theorem l2Term_eval (com : Community) (sp : String) (σ : String → ℚ) :
    Expr.eval σ (l2Term com sp) =
      ((com.species.length : ℚ) *
        List.sum ((((alookup com.constraints ("objective_" ++ sp)).getD []).filter
            (fun v => v.ub - v.lb > 1 / 1000000)).map (fun v => σ v.name))) ^ 2 := by
  unfold l2Term
  simp only [Expr.eval]
  rw [eval_foldl_vars σ]
  simp [Expr.eval]

/-- The objective installed by `regularize_l2_norm` evaluates to the
negated sum of the per-species L2 summands. -/
theorem regularize_objective_eval (com : Community) (m : ℚ) (σ : String → ℚ) :
    Expr.eval σ (regularize_l2_norm com m).objective =
      -((com.species.map (fun sp => Expr.eval σ (l2Term com sp))).sum) := by
  have h : (regularize_l2_norm com m).objective =
      Expr.neg (com.species.foldl
        (fun acc sp => Expr.add acc (l2Term com sp)) Expr.zero) := rfl
  rw [h]
  show -(Expr.eval σ _) = _
  rw [eval_foldl_l2 com σ]
  simp [Expr.eval]

/-- C7: `regularize_l2_norm` sets the community-objective lower bound to
`min_growth`, installs as the model objective the negation of the sum over
all member species of `(member_count · S)²` — where `S` is the sum of that
species' own-objective constraint variables whose bound interval width
exceeds `1e-6` — and marks the model with modification `"l2 norm"`. -/
theorem regularize_l2_norm_spec (com : Community) (m : ℚ) (σ : String → ℚ) :
    (regularize_l2_norm com m).co_lb = m ∧
    (regularize_l2_norm com m).modification = some "l2 norm" ∧
    Expr.eval σ (regularize_l2_norm com m).objective =
      -(List.sum (com.species.map (fun sp =>
          ((com.species.length : ℚ) *
            List.sum ((((alookup com.constraints ("objective_" ++ sp)).getD []).filter
                (fun v => v.ub - v.lb > 1 / 1000000)).map
              (fun v => σ v.name))) ^ 2))) := by
  refine ⟨rfl, rfl, ?_⟩
  rw [regularize_objective_eval]
  simp [l2Term_eval]

/-- Label lookup through an aligned element-wise operation. -/
theorem alookup_rowZip (f : Val → Val → Val) (ys : Row) (k : String) :
    ∀ xs : Row, alookup (rowZip f xs ys) k =
      (alookup xs k).map (fun v => f v ((alookup ys k).getD .nan))
  | [] => rfl
  | p :: ps => by
    simp only [rowZip, List.map_cons, alookup]
    by_cases h : p.1 = k
    · simp [h]
    · simpa [h] using alookup_rowZip f ys k ps

/-- C6: the reporting transform of `knockout_species` computes, on every
member where both rows carry numbers and the reference value is nonzero:
`new − old` when only `"change"` is in `method`; `new / old` when only
`"relative"` is; and `(new − old) / old` when both flags are present
(change applied first, then relative). -/
theorem knockout_method_transform (method : String) (old new0 : Row)
    (k : String) (a b : ℚ)
    (hn : alookup new0 k = some (.num a))
    (ho : alookup old k = some (.num b)) (hb : b ≠ 0) :
    (hasFlag "change" method = true → hasFlag "relative" method = false →
      alookup (knockoutReport method old new0).1 k = some (.num (a - b))) ∧
    (hasFlag "change" method = false → hasFlag "relative" method = true →
      alookup (knockoutReport method old new0).1 k = some (.num (a / b))) ∧
    (hasFlag "change" method = true → hasFlag "relative" method = true →
      alookup (knockoutReport method old new0).1 k = some (.num ((a - b) / b))) := by
  refine ⟨fun hC hR => ?_, fun hC hR => ?_, fun hC hR => ?_⟩
  · have h1 : (knockoutReport method old new0).1 = rowZip Val.sub new0 old := by
      simp [knockoutReport, hC, hR]
    rw [h1, alookup_rowZip, hn]
    simp [ho, Val.sub]
  · have h1 : (knockoutReport method old new0).1 = rowZip Val.div new0 old := by
      simp [knockoutReport, hC, hR]
    rw [h1, alookup_rowZip, hn]
    simp [ho, Val.div, hb]
  · have h1 : (knockoutReport method old new0).1 =
        rowZip Val.div (rowZip Val.sub new0 old) old := by
      simp [knockoutReport, hC, hR]
    rw [h1, alookup_rowZip, alookup_rowZip, hn]
    simp [ho, Val.sub, Val.div, hb]

/-- Witness for C6 at the spec's scenario rows: knockout reporting with
`method = "change,relative"`, `old = {A: 0.8, B: 0.6}`,
`new = {A: 0.0, B: 0.5}` reports `A ↦ (0 − 0.8)/0.8`. -/
theorem knockout_method_transform_witness :
    alookup (knockoutReport "change,relative"
        [("A", .num (4/5)), ("B", .num (3/5))]
        [("A", .num 0), ("B", .num (1/2))]).1 "A"
      = some (.num ((0 - 4/5) / (4/5))) :=
  (knockout_method_transform "change,relative"
      [("A", .num (4/5)), ("B", .num (3/5))]
      [("A", .num 0), ("B", .num (1/2))] "A" 0 (4/5)
      (by decide) (by decide) (by norm_num)).2.2 (by decide) (by decide)

/-- Each tradeoff iteration reports its own fraction. -/
theorem tradeoffStep_fst (O : Oracle) (fl pf : Bool) (g fr : ℚ)
    (com : Community) :
    (tradeoffStep O fl pf g fr com).1.1 = fr := by
  simp only [tradeoffStep]
  split <;> rfl

/-- The tradeoff sweep produces one row per fraction, tagged in order. -/
theorem tradeoffLoop_fst (O : Oracle) (fl pf : Bool) (g : ℚ) :
    ∀ (frs : List ℚ) (com : Community),
      ((tradeoffLoop O fl pf g frs com).1).map Prod.fst = frs
  | [], _ => rfl
  | fr :: rest, com => by
    simp only [tradeoffLoop, List.map_cons]
    rw [tradeoffStep_fst, tradeoffLoop_fst O fl pf g rest]

/-- `tradeoffFinish` on a singleton is the bare solution. -/
theorem tradeoffFinish_one (a : ℚ × Solution) :
    tradeoffFinish [a] = TradeoffResult.single a.2 := rfl

/-- `tradeoffFinish` on a result list that is not a singleton is the
table. -/
theorem tradeoffFinish_ne_one (results : List (ℚ × Solution))
    (h : results.length ≠ 1) :
    tradeoffFinish results = TradeoffResult.table results := by
  cases results with
  | nil => rfl
  | cons a t =>
    cases t with
    | nil => exact absurd rfl h
    | cons b u => rfl

/-- A list whose `map Prod.fst` is a singleton is a singleton. -/
theorem map_fst_single {rows : List (ℚ × Solution)} {f : ℚ}
    (h : rows.map Prod.fst = [f]) : ∃ a, rows = [a] := by
  cases rows with
  | nil => simp at h
  | cons a t =>
    cases t with
    | nil => exact ⟨a, rfl⟩
    | cons b u => simp at h

/-- A successful `cooperative_tradeoff` call's return value is the
finisher applied to the per-fraction sweep over the sorted fractions,
with `g` the baseline retry value. -/
theorem tradeoff_result_ok (O : Oracle) (com : Community)
    (mg : MinGrowthSpec) (frspec : FracSpec) (fl pf : Bool)
    (r : TradeoffResult)
    (h : getOk (cooperative_tradeoff O com mg frspec fl pf).result = some r) :
    ∃ g, O.retry (tradeoffPrep com mg) = some g ∧
      r = tradeoffFinish (tradeoffLoop O fl pf g (normFractions frspec)
        (regularize_l2_norm (tradeoffPrep com mg) 0)).1 := by
  cases hc : check_modification com with
  | true =>
    simp only [cooperative_tradeoff, tradeoffBody, hc, if_true, getOk] at h
    exact Option.noConfusion h
  | false =>
    simp only [cooperative_tradeoff, tradeoffBody, hc, Bool.false_eq_true,
      if_false] at h
    cases hO : O.retry (tradeoffPrep com mg) with
    | none => rw [hO] at h; simp [getOk] at h
    | some g =>
      rw [hO] at h
      simp only [getOk, Option.some.injEq] at h
      exact ⟨g, rfl, h.symm⟩

/-- C2 (amended): `cooperative_tradeoff` returns a bare solution for a
scalar fraction and for a one-element fraction sequence; for any other
sequence it returns a table with exactly one row per input fraction,
rows ordered by descending fraction regardless of the input order. -/
theorem cooperative_tradeoff_shape (O : Oracle) (com : Community)
    (mg : MinGrowthSpec) (fl pf : Bool) :
    (∀ f r, getOk (cooperative_tradeoff O com mg (.scalar f) fl pf).result = some r →
       ∃ s, r = TradeoffResult.single s) ∧
    (∀ l r, l.length = 1 →
       getOk (cooperative_tradeoff O com mg (.seq l) fl pf).result = some r →
       ∃ s, r = TradeoffResult.single s) ∧
    (∀ l r, l.length ≠ 1 →
       getOk (cooperative_tradeoff O com mg (.seq l) fl pf).result = some r →
       ∃ rows, r = TradeoffResult.table rows ∧
         rows.map Prod.fst = sortDesc l ∧
         List.Sorted (· ≥ ·) (rows.map Prod.fst) ∧
         (rows.map Prod.fst).Perm l) := by
  refine ⟨fun f r h => ?_, fun l r hl h => ?_, fun l r hl h => ?_⟩
  · obtain ⟨g, hg, hr⟩ := tradeoff_result_ok O com mg (.scalar f) fl pf r h
    have hfst := tradeoffLoop_fst O fl pf g (normFractions (.scalar f))
      (regularize_l2_norm (tradeoffPrep com mg) 0)
    obtain ⟨a, ha⟩ := map_fst_single (f := f) hfst
    rw [ha] at hr
    exact ⟨a.2, by rw [hr, tradeoffFinish_one]⟩
  · obtain ⟨g, hg, hr⟩ := tradeoff_result_ok O com mg (.seq l) fl pf r h
    rw [show normFractions (.seq l) = sortDesc l from rfl] at hr
    obtain ⟨f, hf⟩ : ∃ f, sortDesc l = [f] := by
      have hlen : (sortDesc l).length = 1 := by
        simpa [sortDesc] using hl
      cases hsd : sortDesc l with
      | nil => rw [hsd] at hlen; simp at hlen
      | cons a t =>
        rw [hsd] at hlen
        cases t with
        | nil => exact ⟨a, rfl⟩
        | cons b u => simp at hlen
    rw [hf] at hr
    have hfst := tradeoffLoop_fst O fl pf g [f]
      (regularize_l2_norm (tradeoffPrep com mg) 0)
    obtain ⟨a, ha⟩ := map_fst_single (f := f) hfst
    rw [ha, tradeoffFinish_one] at hr
    exact ⟨a.2, hr⟩
  · obtain ⟨g, hg, hr⟩ := tradeoff_result_ok O com mg (.seq l) fl pf r h
    have hfst := tradeoffLoop_fst O fl pf g (normFractions (.seq l))
      (regularize_l2_norm (tradeoffPrep com mg) 0)
    have hlen : ((tradeoffLoop O fl pf g (normFractions (.seq l))
        (regularize_l2_norm (tradeoffPrep com mg) 0)).1).length ≠ 1 := by
      have h1 : ((tradeoffLoop O fl pf g (normFractions (.seq l))
          (regularize_l2_norm (tradeoffPrep com mg) 0)).1).length = l.length := by
        have h2 := congrArg List.length hfst
        simpa [normFractions, sortDesc] using h2
      rw [h1]
      exact hl
    rw [tradeoffFinish_ne_one _ hlen] at hr
    refine ⟨_, hr, hfst, ?_, ?_⟩
    · rw [hfst]
      exact List.sorted_insertionSort (· ≥ ·) l
    · rw [hfst]
      exact List.perm_insertionSort (· ≥ ·) l

/-- Counterexample for C2 as stated: a one-element fraction sequence
returns a bare solution, not a one-row table. -/
theorem seq_singleton_gives_bare_solution :
    (getOk (cooperative_tradeoff Otriv comA (.scalar 0) (.seq [1/2]) false
        false).result).map isTable = some false := by decide

/-- Witness for C2 (amended) at a concrete two-fraction call given in
ascending order: the result is the table `[(1, ·), (1/2, ·)]`. -/
theorem cooperative_tradeoff_shape_witness :
    ∃ rows, TradeoffResult.table [((1 : ℚ), solTriv), ((1/2 : ℚ), solTriv)]
        = TradeoffResult.table rows ∧
      rows.map Prod.fst = sortDesc [1/2, 1] ∧
      List.Sorted (· ≥ ·) (rows.map Prod.fst) ∧
      (rows.map Prod.fst).Perm [1/2, 1] := by
  obtain ⟨rows, h1, h2, h3, h4⟩ :=
    (cooperative_tradeoff_shape Otriv comA (.scalar 0) false false).2.2
      [1/2, 1] (TradeoffResult.table [((1 : ℚ), solTriv), ((1/2 : ℚ), solTriv)])
      (by decide) (by decide)
  exact ⟨rows, h1, h2, h3, h4⟩

/-- Under an all-optimal solver, every solver event of the tradeoff sweep
is a per-fraction solve with lower bound `fr * g` for one of the swept
fractions, and an upper bound still unbounded. -/
theorem tradeoffLoop_trace_optimal (O : Oracle) (fl pf : Bool) (g : ℚ)
    (hopt : ∀ c, (O.solveFn c fl pf).status = Status.optimal) :
    ∀ (frs : List ℚ) (com : Community), com.co_ub = none →
      ∀ e ∈ (tradeoffLoop O fl pf g frs com).2.2,
        e.kind = EvKind.solveCall ∧
        (∃ fr ∈ frs, e.state.co_lb = fr * g) ∧ e.state.co_ub = none
  | [], com => by
    intro _ e he
    simp [tradeoffLoop] at he
  | fr :: rest, com => by
    intro hub e he
    have hstep : tradeoffStep O fl pf g fr com =
        ((fr, O.solveFn { com with co_lb := fr * g } fl pf),
         { com with co_lb := fr * g },
         [⟨EvKind.solveCall, { com with co_lb := fr * g }⟩]) := by
      simp only [tradeoffStep]
      rw [if_pos (hopt _)]
    simp only [tradeoffLoop, hstep] at he
    rcases List.mem_append.mp he with h | h
    · rcases List.mem_singleton.mp h with rfl
      refine ⟨rfl, ⟨fr, List.mem_cons_self fr rest, rfl⟩, hub⟩
    · have ih := tradeoffLoop_trace_optimal O fl pf g hopt rest
        { com with co_lb := fr * g } hub e h
      exact ⟨ih.1, ⟨ih.2.1.choose,
        List.mem_cons_of_mem fr ih.2.1.choose_spec.1, ih.2.1.choose_spec.2⟩,
        ih.2.2⟩

/-- The optimal branch of a tradeoff iteration, as an equation. -/
theorem tradeoffStep_eq_optimal (O : Oracle) (fl pf : Bool) (g fr : ℚ)
    (com : Community)
    (h : (O.solveFn { com with co_lb := fr * g } fl pf).status
        = Status.optimal) :
    tradeoffStep O fl pf g fr com =
      ((fr, O.solveFn { com with co_lb := fr * g } fl pf),
       { com with co_lb := fr * g },
       [⟨EvKind.solveCall, { com with co_lb := fr * g }⟩]) := by
  simp only [tradeoffStep]
  rw [if_pos h]

/-- The crossover branch of a tradeoff iteration, as an equation. -/
theorem tradeoffStep_eq_crossover (O : Oracle) (fl pf : Bool) (g fr : ℚ)
    (com : Community)
    (h : ¬ (O.solveFn { com with co_lb := fr * g } fl pf).status
        = Status.optimal) :
    tradeoffStep O fl pf g fr com =
      ((fr, O.crossoverFn
          { com with co_lb := 99/100 * fr * g,
                     co_ub := some (101/100 * fr * g) }
          (O.solveFn { com with co_lb := fr * g } fl pf)),
       { com with co_lb := 99/100 * fr * g,
                  co_ub := some (101/100 * fr * g) },
       [⟨EvKind.solveCall, { com with co_lb := fr * g }⟩,
        ⟨EvKind.crossoverCall,
         { com with co_lb := 99/100 * fr * g,
                    co_ub := some (101/100 * fr * g) }⟩]) := by
  simp only [tradeoffStep]
  rw [if_neg h]

/-- The solve-call marker matches itself. -/
theorem beq_solveCall_self : (EvKind.solveCall == EvKind.solveCall) = true := rfl

/-- A crossover event is not a solve call. -/
theorem beq_crossover_solve :
    (EvKind.crossoverCall == EvKind.solveCall) = false := rfl

/-- A retry event is not a solve call. -/
theorem beq_retry_solve : (EvKind.retryCall == EvKind.solveCall) = false := rfl

/-- For every oracle — crossover recoveries included — the per-fraction
solves of the tradeoff sweep, taken in order, install exactly the lower
bounds `fr * g` for the fractions `fr` in sweep order: each solve is
paired with its own fraction. -/
theorem tradeoffLoop_solve_lbs (O : Oracle) (fl pf : Bool) (g : ℚ) :
    ∀ (frs : List ℚ) (com : Community),
      (((tradeoffLoop O fl pf g frs com).2.2).filter
          (fun e => e.kind == EvKind.solveCall)).map (fun e => e.state.co_lb)
        = frs.map (fun fr => fr * g)
  | [], com => by simp [tradeoffLoop]
  | fr :: rest, com => by
    by_cases h : (O.solveFn { com with co_lb := fr * g } fl pf).status
        = Status.optimal
    · simp only [tradeoffLoop, tradeoffStep_eq_optimal O fl pf g fr com h]
      simp only [List.filter_append, List.map_append, List.filter_cons,
        List.filter_nil, beq_solveCall_self, if_true, List.map_cons,
        List.map_nil]
      rw [tradeoffLoop_solve_lbs O fl pf g rest]
      simp
    · simp only [tradeoffLoop, tradeoffStep_eq_crossover O fl pf g fr com h]
      simp only [List.filter_append, List.filter_cons, List.filter_nil,
        beq_solveCall_self, beq_crossover_solve, Bool.false_eq_true,
        if_true, if_false, List.map_append, List.map_cons, List.map_nil]
      rw [tradeoffLoop_solve_lbs O fl pf g rest]
      simp

/-- For every oracle, the upper bound a per-fraction solve sees is either
the bound the sweep started with or the `1.01·fr'·g` bound left in place
by an earlier fraction's crossover. -/
theorem tradeoffLoop_solve_ubs (O : Oracle) (fl pf : Bool) (g : ℚ) :
    ∀ (frs : List ℚ) (com : Community),
      ∀ e ∈ (tradeoffLoop O fl pf g frs com).2.2,
        e.kind = EvKind.solveCall →
          e.state.co_ub = com.co_ub ∨
          ∃ fr ∈ frs, e.state.co_ub = some (101/100 * fr * g)
  | [], com => by
    intro e he
    simp [tradeoffLoop] at he
  | fr :: rest, com => by
    intro e he hk
    by_cases h : (O.solveFn { com with co_lb := fr * g } fl pf).status
        = Status.optimal
    · simp only [tradeoffLoop, tradeoffStep_eq_optimal O fl pf g fr com h] at he
      rcases List.mem_append.mp he with h1 | h1
      · rcases List.mem_singleton.mp h1 with rfl
        exact Or.inl rfl
      · rcases tradeoffLoop_solve_ubs O fl pf g rest
            { com with co_lb := fr * g } e h1 hk with h2 | ⟨fr2, hfr2, h2⟩
        · exact Or.inl h2
        · exact Or.inr ⟨fr2, List.mem_cons_of_mem fr hfr2, h2⟩
    · simp only [tradeoffLoop, tradeoffStep_eq_crossover O fl pf g fr com h] at he
      rcases List.mem_append.mp he with h1 | h1
      · rcases List.mem_cons.mp h1 with rfl | h1
        · exact Or.inl rfl
        · rcases List.mem_singleton.mp h1 with rfl
          simp at hk
      · rcases tradeoffLoop_solve_ubs O fl pf g rest
            { com with co_lb := 99/100 * fr * g,
                       co_ub := some (101/100 * fr * g) } e h1 hk with
          h2 | ⟨fr2, hfr2, h2⟩
        · exact Or.inr ⟨fr, List.mem_cons_self fr rest, h2⟩
        · exact Or.inr ⟨fr2, List.mem_cons_of_mem fr hfr2, h2⟩

/-- When the guard passes and the baseline retry yields `g`, the trace of
`cooperative_tradeoff` is the baseline retry event followed by the sweep's
events. -/
theorem tradeoff_trace_eq (O : Oracle) (com : Community)
    (mg : MinGrowthSpec) (frspec : FracSpec) (fl pf : Bool) (g : ℚ)
    (hmod : com.modification = none)
    (hg : O.retry (tradeoffPrep com mg) = some g) :
    (cooperative_tradeoff O com mg frspec fl pf).trace =
      ⟨EvKind.retryCall, tradeoffPrep com mg⟩ ::
        (tradeoffLoop O fl pf g (normFractions frspec)
          (regularize_l2_norm (tradeoffPrep com mg) 0)).2.2 := by
  have hc : check_modification com = false := by
    simp [check_modification, hmod]
  simp only [cooperative_tradeoff, tradeoffBody, hc, Bool.false_eq_true,
    if_false, hg]

/-- C4 (amended): in every `cooperative_tradeoff` sweep that passes the
modification guard and obtains the baseline growth rate `g` (computed
under the caller-supplied minimum growth, not under zero minimum growth):
(1) for every oracle — crossover recoveries included — the per-fraction
solves, in sweep order, install exactly the lower bounds `fr * g` for the
descending fractions `fr`, each solve paired with its own fraction;
(2) the upper bound at every per-fraction solve is unbounded provided it
was unbounded at entry and no solve of the sweep is non-optimal; and
(3) in general a per-fraction solve's upper bound is either the entry
upper bound or the `1.01·fr'·g` bound left in place by an earlier
fraction's crossover. -/
theorem tradeoff_bound_policy (O : Oracle) (com : Community)
    (mg : MinGrowthSpec) (frspec : FracSpec) (fl pf : Bool) (g : ℚ)
    (hmod : com.modification = none)
    (hg : O.retry (tradeoffPrep com mg) = some g) :
    ((((cooperative_tradeoff O com mg frspec fl pf).trace.filter
        (fun e => e.kind == EvKind.solveCall)).map (fun e => e.state.co_lb))
      = (normFractions frspec).map (fun fr => fr * g)) ∧
    (com.co_ub = none →
      (∀ c, (O.solveFn c fl pf).status = Status.optimal) →
      ∀ e ∈ (cooperative_tradeoff O com mg frspec fl pf).trace,
        e.kind = EvKind.solveCall → e.state.co_ub = none) ∧
    (∀ e ∈ (cooperative_tradeoff O com mg frspec fl pf).trace,
      e.kind = EvKind.solveCall →
        e.state.co_ub = com.co_ub ∨
        ∃ fr ∈ normFractions frspec,
          e.state.co_ub = some (101/100 * fr * g)) := by
  have htr := tradeoff_trace_eq O com mg frspec fl pf g hmod hg
  refine ⟨?_, ?_, ?_⟩
  · rw [htr]
    simp only [List.filter_cons, beq_retry_solve, Bool.false_eq_true,
      if_false]
    rw [tradeoffLoop_solve_lbs O fl pf g (normFractions frspec)]
  · intro hub hopt e he hk
    rw [htr] at he
    rcases List.mem_cons.mp he with rfl | h
    · simp at hk
    · exact (tradeoffLoop_trace_optimal O fl pf g hopt (normFractions frspec)
        (regularize_l2_norm (tradeoffPrep com mg) 0) hub e h).2.2
  · intro e he hk
    rw [htr] at he
    rcases List.mem_cons.mp he with rfl | h
    · simp at hk
    · exact tradeoffLoop_solve_ubs O fl pf g (normFractions frspec)
        (regularize_l2_norm (tradeoffPrep com mg) 0) e h hk

/-- Counterexample for C4 as stated, at a concrete call with fractions
`[1, 1/2]` and caller minimum growth `1`: after the crossover at fraction
`1`, the solve for fraction `1/2` runs with upper bound `1.01` instead of
unbounded; and the baseline `g = 1` differs from the optimum `2` the
solver reports under zero minimum growth, so the installed lower bound `1`
is not `fr` times the zero-minimum-growth optimum. -/
theorem tradeoff_bound_policy_cx :
    ((cooperative_tradeoff Ocx4 comA (.scalar 1) (.seq [1, 1/2]) false
        false).trace.getD 3 defaultEvent).kind = EvKind.solveCall ∧
    ((cooperative_tradeoff Ocx4 comA (.scalar 1) (.seq [1, 1/2]) false
        false).trace.getD 3 defaultEvent).state.co_ub = some (101/100) ∧
    some ((101 : ℚ)/100) ≠ (none : Option ℚ) ∧
    ((cooperative_tradeoff Ocx4 comA (.scalar 1) (.seq [1, 1/2]) false
        false).trace.getD 1 defaultEvent).kind = EvKind.solveCall ∧
    ((cooperative_tradeoff Ocx4 comA (.scalar 1) (.seq [1, 1/2]) false
        false).trace.getD 1 defaultEvent).state.co_lb = 1 ∧
    Ocx4.retry (tradeoffPrep comA (.scalar 0)) = some 2 ∧
    (1 : ℚ) ≠ 1 * 2 := by decide

/-- Witness for C4 (amended), exercising both halves concretely: the
crossover-containing `[1, 1/2]` sweep over `Ocx4` still pairs each
per-fraction solve with its own fraction's lower bound, and over the
all-optimal oracle the first per-fraction solve of a `[1/2, 1]` sweep has
an unbounded upper bound. -/
theorem tradeoff_bound_policy_witness :
    ((((cooperative_tradeoff Ocx4 comA (.scalar 1) (.seq [1, 1/2]) false
        false).trace.filter
        (fun e => e.kind == EvKind.solveCall)).map (fun e => e.state.co_lb))
      = (normFractions (.seq [1, 1/2])).map (fun fr => fr * 1)) ∧
    ((cooperative_tradeoff Otriv comA (.scalar 0) (.seq [1/2, 1]) false
        false).trace.getD 1 defaultEvent).state.co_ub = none :=
  ⟨(tradeoff_bound_policy Ocx4 comA (.scalar 1) (.seq [1, 1/2]) false false 1
      rfl (by decide)).1,
   (tradeoff_bound_policy Otriv comA (.scalar 0) (.seq [1/2, 1]) false false 1
      rfl rfl).2.1 rfl (fun _ => rfl)
    ((cooperative_tradeoff Otriv comA (.scalar 0) (.seq [1/2, 1]) false
        false).trace.getD 1 defaultEvent)
    (by decide) (by decide)⟩

/-- C3 (amended): in both drivers a per-fraction / per-species solve
returning a non-optimal status triggers exactly one crossover-recovery
solve (the trace gains exactly one `crossoverCall` and nothing else), and
the recovery's returned solution is used downstream as-is, whatever its
status, with no further retries.  The recovery bounds are
`[0.99·fr·g, 1.01·fr·g]` in `cooperative_tradeoff` but `[0, fraction·gsp]`
(not `[0.99·target, 1.01·target]`) in `knockout_species`. -/
theorem crossover_recovery_policy (O : Oracle) (fluxes pfba : Bool)
    (g fr fraction c0 gsp : ℚ) (method : String) (old : Row) (sp : String)
    (comT comK : Community)
    (hT : (O.solveFn { comT with co_lb := fr * g } fluxes pfba).status
        ≠ Status.optimal)
    (hK1 : O.retry (knockoutInnerState comK c0 sp) = some gsp)
    (hK2 : (O.optimizeFn (knockoutTargetState comK c0 sp fraction gsp)).status
        ≠ Status.optimal) :
    tradeoffStep O fluxes pfba g fr comT =
      ((fr, O.crossoverFn
          { comT with co_lb := 99/100 * fr * g,
                      co_ub := some (101/100 * fr * g) }
          (O.solveFn { comT with co_lb := fr * g } fluxes pfba)),
       { comT with co_lb := 99/100 * fr * g,
                   co_ub := some (101/100 * fr * g) },
       [⟨EvKind.solveCall, { comT with co_lb := fr * g }⟩,
        ⟨EvKind.crossoverCall,
         { comT with co_lb := 99/100 * fr * g,
                     co_ub := some (101/100 * fr * g) }⟩]) ∧
    knockoutStep O fraction c0 method old sp comK =
      (.ok ((knockoutReport method old (O.crossoverFn
              { knockoutTargetState comK c0 sp fraction gsp with
                co_lb := 0, co_ub := some (fraction * gsp) }
              (O.optimizeFn (knockoutTargetState comK c0 sp fraction gsp))).members).1,
            { O.crossoverFn
                { knockoutTargetState comK c0 sp fraction gsp with
                  co_lb := 0, co_ub := some (fraction * gsp) }
                (O.optimizeFn (knockoutTargetState comK c0 sp fraction gsp)) with
              members := (knockoutReport method old (O.crossoverFn
                  { knockoutTargetState comK c0 sp fraction gsp with
                    co_lb := 0, co_ub := some (fraction * gsp) }
                  (O.optimizeFn (knockoutTargetState comK c0 sp fraction gsp))).members).2 }),
       restoreScope comK
         { knockoutTargetState comK c0 sp fraction gsp with
           co_lb := 0, co_ub := some (fraction * gsp) },
       [⟨EvKind.retryCall, knockoutInnerState comK c0 sp⟩,
        ⟨EvKind.optimizeCall, knockoutTargetState comK c0 sp fraction gsp⟩,
        ⟨EvKind.crossoverCall,
         { knockoutTargetState comK c0 sp fraction gsp with
           co_lb := 0, co_ub := some (fraction * gsp) }⟩]) := by
  constructor
  · simp only [tradeoffStep]
    rw [if_neg hT]
  · simp only [knockoutStep, hK1]
    rw [if_neg hK2]

/-- Counterexample for C3 as stated: a concrete knockout run whose single
per-species solve is non-optimal performs its one crossover with bounds
`[0, fraction·gsp] = [0, 1]`, which are not
`[0.99·target, 1.01·target]`. -/
theorem crossover_recovery_policy_cx :
    ((knockout_species Ocx3 comA ["A"] (1/2) "" false).trace.filter
        (fun e => e.kind == EvKind.crossoverCall)).map
        (fun e => (e.state.co_lb, e.state.co_ub))
      = [((0 : ℚ), some ((1 : ℚ)/2 * 2))] ∧
    (0 : ℚ) ≠ 99/100 * ((1/2 : ℚ) * 2) ∧
    some ((1 : ℚ)/2 * 2) ≠ some (101/100 * ((1/2 : ℚ) * 2)) := by decide

/-- Witness for C3 (amended): the non-optimal tradeoff step at a concrete
oracle performs exactly one crossover at `[0.99·fr·g, 1.01·fr·g]` and
returns its solution as-is. -/
theorem crossover_recovery_policy_witness :
    tradeoffStep Ocx3 false false 2 1 comA =
      ((1, Ocx3.crossoverFn
          { comA with co_lb := 99/100 * 1 * 2,
                      co_ub := some (101/100 * 1 * 2) }
          (Ocx3.solveFn { comA with co_lb := 1 * 2 } false false)),
       { comA with co_lb := 99/100 * 1 * 2,
                   co_ub := some (101/100 * 1 * 2) },
       [⟨EvKind.solveCall, { comA with co_lb := 1 * 2 }⟩,
        ⟨EvKind.crossoverCall,
         { comA with co_lb := 99/100 * 1 * 2,
                     co_ub := some (101/100 * 1 * 2) }⟩]) :=
  (crossover_recovery_policy Ocx3 false false 2 1 (1/2) 2 2 "" [] "A" comA
    comA (by decide) (by decide) (by decide)).1

/-- C9 (amended): the reporting transform of `knockout_species` leaves the
solve's solution object unchanged except when `"relative"` is in `method`
and `"change"` is not: in that case the in-place division writes through,
overwriting the solution's growth-rate column with `new / old`. -/
theorem knockout_solution_mutation (O : Oracle) (fraction c0 gsp : ℚ)
    (method : String) (old : Row) (sp : String) (com : Community)
    (h1 : O.retry (knockoutInnerState com c0 sp) = some gsp)
    (h2 : (O.optimizeFn (knockoutTargetState com c0 sp fraction gsp)).status
        = Status.optimal) :
    (knockoutStep O fraction c0 method old sp com).1 =
      .ok ((knockoutReport method old
            (O.optimizeFn (knockoutTargetState com c0 sp fraction gsp)).members).1,
        if hasFlag "relative" method && !hasFlag "change" method then
          { O.optimizeFn (knockoutTargetState com c0 sp fraction gsp) with
            members := rowZip Val.div
              (O.optimizeFn (knockoutTargetState com c0 sp fraction gsp)).members
              old }
        else O.optimizeFn (knockoutTargetState com c0 sp fraction gsp)) := by
  simp only [knockoutStep, h1]
  rw [if_pos h2]
  cases hC : hasFlag "change" method <;> cases hR : hasFlag "relative" method <;>
    simp [knockoutReport, hC, hR]

/-- Counterexample for C9 as stated: with `method = "relative"` the
solution carried out of the knockout iteration no longer has the
growth-rate column it was created with — the transform mutated it. -/
theorem knockout_relative_mutates_solution :
    (getOk (knockoutStep Ocx9 (1/2) 2 "relative"
        [("A", .num 2), ("medium", .num 2)] "A" comA).1).map
        (fun p => p.2.members)
      ≠ some (Ocx9.optimizeFn
          (knockoutTargetState comA 2 "A" (1/2) 2)).members := by decide

/-- Witness for C9 (amended) at a concrete relative-method knockout
iteration. -/
theorem knockout_solution_mutation_witness :
    (knockoutStep Ocx9 (1/2) 2 "relative"
        [("A", .num 2), ("medium", .num 2)] "A" comA).1 =
      .ok ((knockoutReport "relative" [("A", .num 2), ("medium", .num 2)]
            (Ocx9.optimizeFn (knockoutTargetState comA 2 "A" (1/2) 2)).members).1,
        if hasFlag "relative" "relative" && !hasFlag "change" "relative" then
          { Ocx9.optimizeFn (knockoutTargetState comA 2 "A" (1/2) 2) with
            members := rowZip Val.div
              (Ocx9.optimizeFn (knockoutTargetState comA 2 "A" (1/2) 2)).members
              [("A", .num 2), ("medium", .num 2)] }
        else Ocx9.optimizeFn (knockoutTargetState comA 2 "A" (1/2) 2)) :=
  knockout_solution_mutation Ocx9 (1/2) 2 2 "relative"
    [("A", .num 2), ("medium", .num 2)] "A" comA (by decide) (by decide)

/-- C1 (code bug): the table returned by `knockout_species` carries no
`"medium"` column, but with `diag = false` the diagonal cells are NOT
not-a-number: the `fill_diagonal` treatment is applied to the local `ko`
table, which the final `return` statement discards by rebuilding the table
from `results`.  Here a concrete `diag = false` run returns numeric
diagonal cells. -/
theorem knockout_diag_not_filled :
    tableCell (knockout_species OknockAB comAB ["A", "B"] (1/2) "" false
        false).result "A" "A" = some (Val.num 1) ∧
    tableCell (knockout_species OknockAB comAB ["A", "B"] (1/2) "" false
        false).result "B" "B" = some (Val.num 1) ∧
    Val.num 1 ≠ Val.nan ∧
    (getOk (knockout_species OknockAB comAB ["A", "B"] (1/2) "" false
        false).result).map (fun t => t.map (fun r => alookup r.2 "medium"))
      = some [none, none] := by decide

end Micom
